import Mathlib

/-!
Shallow embedding of the Everest control-plane fragment: the namespace
lifecycle code of `pkg/cli/namespaces/add.go`, the database-cluster-restore
API handlers of the `api` package, and the constants of `pkg/common`.

External collaborators (the Kubernetes client, the Helm release installer,
the RBAC enforcement backend, request decoding) are passed in as explicit
oracle functions; everything algorithmic is translated directly from the
source. Machine behaviour that Go leaves unspecified (iteration order of a
Go map) is exposed as an explicit parameter.
-/

namespace EverestModel

/-! ### Constants from `pkg/common` (source file `src/unnamed/part_000`) -/

/-- Constant `common.Everest`, the value of the managed-by ownership label. -/
def Everest : String := "everest"

/-- Constant `common.SystemNamespace`. -/
def SystemNamespace : String := "everest-system"

/-- Constant `common.MonitoringNamespace`. -/
def MonitoringNamespace : String := "everest-monitoring"

/-- Modelled from the spec: the constant `kubernetes.OLMNamespace` is declared
in the `kubernetes` package, which is not among the provided sources. The spec
names it as the external operator-lifecycle-manager namespace, one of the
fixed reserved namespace identifiers. No theorem depends on its concrete
value, only on membership in the reserved set. -/
def OLMNamespace : String := "everest-olm"

/-- Constant `common.KubernetesManagedByLabel`. -/
def KubernetesManagedByLabel : String := "app.kubernetes.io/managed-by"

/-! ### String helpers

Go `strings.Split` and `strings.TrimSpace` are embedded as structurally
recursive character-list functions, so that every theorem about them can be
evaluated by the kernel. -/

/-- Accumulator-style splitting of a character list at commas; `cur` holds the
reversed characters of the piece being read. -/
def splitCommaAux (cur : List Char) : List Char → List String
  | [] => [String.mk cur.reverse]
  | c :: cs =>
    if c = ',' then String.mk cur.reverse :: splitCommaAux [] cs
    else splitCommaAux (c :: cur) cs

/-- Go `strings.Split(str, ",")`: n+1 pieces for n commas; the empty string
yields one empty piece. -/
def splitOnCommas (s : String) : List String := splitCommaAux [] s.data

/-- Go `strings.TrimSpace`: removes leading and trailing whitespace. -/
def trimSpace (s : String) : String :=
  String.mk (((s.data.dropWhile Char.isWhitespace).reverse.dropWhile
    Char.isWhitespace).reverse)

/-! ### Namespace validation (`ValidateNamespaces`, `validateRFC1035`) -/

/-- Character class a-z of the RFC-1035 regex. -/
def isLowerAlpha (c : Char) : Bool := 'a' ≤ c && c ≤ 'z'

/-- Character class a-z0-9 of the RFC-1035 regex. -/
def isLowerAlphaNum (c : Char) : Bool := isLowerAlpha c || ('0' ≤ c && c ≤ '9')

/-- Character class of dash and a-z0-9, the inner class of the RFC-1035
regex. -/
def labelChar (c : Char) : Bool := c = '-' || isLowerAlphaNum c

/-- Matching of the anchored regex compiled by `validateRFC1035`, on the
character list: one a-z character, optionally followed by at most 61
characters from dash and a-z0-9 and one final a-z0-9 character (total length
1 to 63). -/
def rfc1035MatchList : List Char → Bool
  | [] => false
  | c :: rest =>
    isLowerAlpha c &&
      (rest.isEmpty ||
        (rest.length ≤ 62 && rest.dropLast.all labelChar &&
          isLowerAlphaNum (rest.getLastD '-')))

/-- Matching of the anchored regex compiled by `validateRFC1035` on a
string. -/
def rfc1035Match (s : String) : Bool := rfc1035MatchList s.data

/-- Error values of `pkg/cli/namespaces`: `ErrNSEmpty`, `ErrNSReserved` and
`ErrNameNotRFC1035Compatible`, as error kinds carrying the offending value. -/
inductive NamespacesError where
  | NSEmpty
  | NSReserved (ns : String)
  | NameNotRFC1035Compatible (fieldName : String)
deriving DecidableEq

/-- The reserved-name comparison of `ValidateNamespaces`: `ns` equals
`common.SystemNamespace`, `common.MonitoringNamespace` or
`kubernetes.OLMNamespace`. -/
def isReservedName (t : String) : Bool :=
  t = SystemNamespace || t = MonitoringNamespace || t = OLMNamespace

/-- Modelling of the Go map insertion into `m` inside `ValidateNamespaces`:
the key set of the map, kept as a duplicate-free list in first-insertion
order. -/
def insertKey (acc : List String) (k : String) : List String :=
  if k ∈ acc then acc else acc ++ [k]

/-- The loop of `ValidateNamespaces` over the split tokens, in order: trim
each, skip empties, fail on a reserved name, fail on an RFC-1035 violation
(the inlined `validateRFC1035` check), otherwise add the token to the key set
of the map `m` (`acc`). -/
def validateNamespacesLoop (acc : List String) :
    List String → Except NamespacesError (List String)
  | [] => .ok acc
  | ns₀ :: rest =>
    if trimSpace ns₀ = "" then validateNamespacesLoop acc rest
    else if isReservedName (trimSpace ns₀) then
      .error (.NSReserved (trimSpace ns₀))
    else if !rfc1035Match (trimSpace ns₀) then
      .error (.NameNotRFC1035Compatible (trimSpace ns₀))
    else validateNamespacesLoop (insertKey acc (trimSpace ns₀)) rest

/-- Function `ValidateNamespaces`, parametrised by the order `enum` in which
the Go statement ranging over the keys of the map `m` enumerates them: Go
leaves that order unspecified, so `enum` may be any function producing a
permutation of the key set. -/
def ValidateNamespacesWith (enum : List String → List String) (str : String) :
    Except NamespacesError (List String) :=
  match validateNamespacesLoop [] (splitOnCommas str) with
  | .error e => .error e
  | .ok keys =>
    let list := enum keys
    if list.length = 0 then .error .NSEmpty else .ok list

/-- Function `ValidateNamespaces` with the key enumeration fixed to
first-insertion order, one admissible Go map iteration order. -/
def ValidateNamespaces (str : String) : Except NamespacesError (List String) :=
  ValidateNamespacesWith id str

/-- The cleaned token list of an input: split at commas, trimmed, with empty
tokens dropped. This is the sequence of tokens the loop actually checks. -/
def cleanTokens (s : String) : List String :=
  ((splitOnCommas s).map trimSpace).filter (fun t => t ≠ "")

/-- A token that passes both per-token checks of the loop: not reserved and
RFC-1035 compatible. -/
def tokenOk (t : String) : Bool := !isReservedName t && rfc1035Match t

/-- The DNS-label rule as the spec words it: only lowercase alphanumeric
characters and dash, starting with a letter, ending with an alphanumeric
character, length between 1 and 63. -/
def specDNSLabel (s : String) : Bool :=
  1 ≤ s.data.length && s.data.length ≤ 63 && s.data.all labelChar &&
    isLowerAlpha (s.data.headD '-') && isLowerAlphaNum (s.data.getLastD '-')

/-! ### Namespace provisioning (`NamespaceAdder`) -/

/-- Struct `OperatorConfig`. -/
structure OperatorConfig where
  PG : Bool
  PSMDB : Bool
  PXC : Bool
deriving DecidableEq

/-- The fields of struct `NamespaceAddConfig` read by the embedded logic
(kubeconfig paths, wizard flags and Helm CLI options that only reach external
collaborators are elided). -/
structure NamespaceAddConfig where
  DisableTelemetry : Bool
  TakeOwnership : Bool
  Operator : OperatorConfig
  Update : Bool
  NamespaceList : List String
  ChartDir : String
deriving DecidableEq

/-- Constant `dbNamespaceSubChartPath`. -/
def dbNamespaceSubChartPath : String := "/charts/everest-db-namespace"

/-- Method `getValues`: the deterministic Helm value set (booleans rendered as
Go fmt with a percent-t verb renders them). -/
def getValues (cfg : NamespaceAddConfig) : List String :=
  ["cleanupOnUninstall=false",
   "pxc=" ++ toString cfg.Operator.PXC,
   "postgresql=" ++ toString cfg.Operator.PG,
   "psmdb=" ++ toString cfg.Operator.PSMDB,
   "telemetry=" ++ toString (!cfg.DisableTelemetry)]

/-- The fragment of a Kubernetes `v1.Namespace` object this code reads: its
labels. -/
structure K8sNamespace where
  labels : List (String × String)
deriving DecidableEq

/-- Function `isManagedByEverest`: the managed-by label is present and equals
`common.Everest`. -/
def isManagedByEverest (ns : K8sNamespace) : Bool :=
  match ns.labels.lookup KubernetesManagedByLabel with
  | some val => val = Everest
  | none => false

/-- Result of the external `kubeClient.GetNamespace` call: found, not-found,
or any other fetch failure. -/
inductive GetNamespaceResult where
  | found (ns : K8sNamespace)
  | notFound
  | failure (msg : String)

/-- Method `namespaceExists`: not-found maps to (false, false) without error;
any other failure is wrapped as an error; a found namespace yields
(true, managed-by-everest). -/
def namespaceExists (getNamespace : String → GetNamespaceResult)
    (nsName : String) : Except String (Bool × Bool) :=
  match getNamespace nsName with
  | .found ns => .ok (true, isManagedByEverest ns)
  | .notFound => .ok (false, false)
  | .failure m => .error ("cannot check if namesapce exists: " ++ m)

/-- The conflict errors returned by `provisionDBNamespace` before the
installer is reached. The constructors carry the namespace interpolated into
the Go error message: namespace does not exist; namespace is not managed by
Everest; namespace already exists. -/
inductive ConflictKind where
  | doesNotExist (ns : String)
  | notManagedByEverest (ns : String)
  | alreadyExists (ns : String)
deriving DecidableEq

/-- Errors of a provisioning step: an infrastructure error propagated from
`namespaceExists`, or one of the conflicts. -/
inductive ProvisionError where
  | infra (msg : String)
  | conflict (k : ConflictKind)
deriving DecidableEq

/-- The `helm.Installer` invocation built by `provisionDBNamespace`: release
name and namespace, value set, the create-namespace flag, and the chart
location options. -/
structure InstallerCall where
  ReleaseName : String
  ReleaseNamespace : String
  Values : List String
  CreateReleaseNamespace : Bool
  ChartDir : String
  ChartVersion : String
deriving DecidableEq

/-- The installer value built at the shared tail of `provisionDBNamespace`
(both non-conflict paths fall through to this code in the source). -/
def installerCall (cfg : NamespaceAddConfig) (ver nsName : String)
    (nsExists : Bool) : InstallerCall :=
  { ReleaseName := nsName
    ReleaseNamespace := nsName
    Values := getValues cfg
    CreateReleaseNamespace := !nsExists
    ChartDir :=
      if cfg.ChartDir = "" then "" else cfg.ChartDir ++ dbNamespaceSubChartPath
    ChartVersion := ver }

/-- Method `provisionDBNamespace`. A result of `.ok c` means the function
reached the tail and invoked the external release installer with call `c`;
every `.error` return happens before the installer value is constructed, so a
conflict never invokes the installer. `Installer.Init` and `Install` are
external Helm operations and are not embedded. -/
def provisionDBNamespace (cfg : NamespaceAddConfig)
    (getNamespace : String → GetNamespaceResult) (ver nsName : String) :
    Except ProvisionError InstallerCall :=
  match namespaceExists getNamespace nsName with
  | .error e => .error (.infra e)
  | .ok (nsExists, ownedByEverest) =>
    if cfg.Update then
      if !nsExists then .error (.conflict (.doesNotExist nsName))
      else if !ownedByEverest then
        .error (.conflict (.notManagedByEverest nsName))
      else .ok (installerCall cfg ver nsName nsExists)
    else if nsExists && !cfg.TakeOwnership then
      .error (.conflict (.alreadyExists nsName))
    else .ok (installerCall cfg ver nsName nsExists)

deriving instance DecidableEq for Except

/-- The single-quote character used by the Go format strings. -/
def quoteChar : Char := Char.ofNat 39

/-- A string wrapped in single quotes, as the Go format strings render the
namespace name. -/
def quoted (s : String) : String :=
  String.mk (quoteChar :: s.data ++ [quoteChar])

/-- A `steps.Step`: its description and the outcome of its action `F`. The
action is deterministic once the cluster responses are fixed, so it is
embedded by its result under the oracles of the run. -/
structure Step where
  Desc : String
  F : Except ProvisionError InstallerCall
deriving DecidableEq

/-- Method `newStepInstallNamespace`. -/
def newStepInstallNamespace (cfg : NamespaceAddConfig)
    (getNamespace : String → GetNamespaceResult) (ver nsName : String) :
    Step :=
  { Desc := (if cfg.Update then "Updating" else "Installing") ++
      " namespace " ++ quoted nsName
    F := provisionDBNamespace cfg getNamespace ver nsName }

/-- The step list built by the loop of `Run` over `cfg.NamespaceList`: one
install step per listed namespace, in list order. -/
def installStepsOf (cfg : NamespaceAddConfig)
    (getNamespace : String → GetNamespaceResult) (ver : String) : List Step :=
  cfg.NamespaceList.map (newStepInstallNamespace cfg getNamespace ver)

/-- Modelled from the spec: `steps.RunStepsWithSpinner` lives in package
`pkg/cli/steps`, which is not among the provided sources; per the spec, steps
execute strictly sequentially, in order, and the first failure halts the
remaining steps. The result is the trace of executed steps paired with their
outcomes. -/
def RunStepsWithSpinner :
    List Step → List (Step × Except ProvisionError InstallerCall)
  | [] => []
  | s :: rest =>
    match s.F with
    | .error e => [(s, .error e)]
    | .ok c => (s, .ok c) :: RunStepsWithSpinner rest

/-- Method `Run` of `NamespaceAdder`: builds one install step per namespace in
`cfg.NamespaceList` and hands them to `RunStepsWithSpinner`. The Helm
installation check and dev-chart setup at its head are external concerns and
are elided. -/
def Run (cfg : NamespaceAddConfig)
    (getNamespace : String → GetNamespaceResult) (ver : String) :
    List (Step × Except ProvisionError InstallerCall) :=
  RunStepsWithSpinner (installStepsOf cfg getNamespace ver)

/-- Resolver states of a namespace, spec section 4.5. -/
inductive NsState where
  | absent
  | presentUnmanaged
  | presentManaged
deriving DecidableEq

/-- The resolver state determined by a `GetNamespace` response: not-found is
absent; a found namespace is managed or unmanaged according to the ownership
label; any other failure is an infrastructure error carrying no state. -/
def stateOf : GetNamespaceResult → Option NsState
  | .notFound => some .absent
  | .found ns =>
    some (if isManagedByEverest ns then .presentManaged else .presentUnmanaged)
  | .failure _ => none

/-- The existence boolean `nsExists` corresponding to a resolver state. -/
def nsExistsOf : NsState → Bool
  | .absent => false
  | .presentUnmanaged => true
  | .presentManaged => true

/-- The ownership boolean `ownedByEverest` corresponding to a resolver
state. -/
def managedOf : NsState → Bool
  | .absent => false
  | .presentUnmanaged => false
  | .presentManaged => true

/-! ### Restore RBAC (`api` package) -/

/-- RBAC actions. The `rbac` package constants `ActionRead`, `ActionCreate`,
`ActionUpdate` and `ActionDelete` are referenced but not defined in the
provided sources; the enumeration follows spec section 3. -/
inductive Action where
  | read
  | create
  | update
  | delete
deriving DecidableEq

/-- The resource types referenced by the restore handlers. -/
inductive Resource where
  | databaseClusterCredentials
  | databaseClusterBackups
  | databaseClusterRestores
deriving DecidableEq

/-- Modelled from the spec: `rbac.ObjectName` (package `rbac`, not among the
provided sources) joins namespace and name into the object identifier string
of the form namespace-slash-name, spec section 3. -/
def ObjectName (ns name : String) : String := ns ++ "/" ++ name

/-- Outcome of the `e.enforce` oracle: `none` is Allowed; the distinguished
Denied error `errInsufficientPermissions`; or any other (infrastructure)
enforcement error. -/
inductive EnforceError where
  | insufficientPermissions
  | internal (msg : String)
deriving DecidableEq

/-- The type of the `e.enforce` oracle: user, resource, action, object. -/
abbrev Enforcer := String → Resource → Action → String → Option EnforceError

/-- Method `enforceDBRestoreRBAC`: the three sequential enforce calls guarding
restore creation — read on the target cluster credentials, read on the named
source backup, read on restores keyed by the target cluster — returning the
first error if any. -/
def enforceDBRestoreRBAC (enforce : Enforcer)
    (user nsName srcBackupName dbClusterName : String) : Option EnforceError :=
  match enforce user .databaseClusterCredentials .read
      (ObjectName nsName dbClusterName) with
  | some e => some e
  | none =>
    match enforce user .databaseClusterBackups .read
        (ObjectName nsName srcBackupName) with
    | some e => some e
    | none =>
      enforce user .databaseClusterRestores .read
        (ObjectName nsName dbClusterName)

/-- The fields of `everestv1alpha1.DatabaseClusterRestore` read by the RBAC
checks: its object namespace and the DB cluster name of its spec. -/
structure DatabaseClusterRestoreCR where
  objNamespace : String
  dbClusterName : String
deriving DecidableEq

/-- Method `enforceDBClusterListRestoreRBAC`: one enforce call on the restores
resource, keyed by the namespace of the restore and the source cluster it
restores. The error logging on non-permission failures is a side effect only
and is elided. -/
def enforceDBClusterListRestoreRBAC (enforce : Enforcer) (user : String)
    (restore : DatabaseClusterRestoreCR) (action : Action) :
    Option EnforceError :=
  enforce user .databaseClusterRestores action
    (ObjectName restore.objNamespace restore.dbClusterName)

/-- Errors aborting the list filter: a decode failure from the unstructured
converter, or a non-permission enforcement error. -/
inductive ListFilterError where
  | decodeFailed (msg : String)
  | enforceFailed (e : EnforceError)
deriving DecidableEq

/-- The `rbacFilter` closure of `ListDatabaseClusterRestores`: for each raw
item in input order, decode it (aborting the whole operation on failure),
drop it silently when the check is denied with `errInsufficientPermissions`,
abort on any other enforcement error, and keep it otherwise; survivors retain
their input order. -/
def rbacFilter {Item : Type}
    (decode : Item → Except String DatabaseClusterRestoreCR)
    (enforce : Enforcer) (user : String) :
    List Item → Except ListFilterError (List Item)
  | [] => .ok []
  | obj :: rest =>
    match decode obj with
    | .error m => .error (.decodeFailed m)
    | .ok restore =>
      match enforceDBClusterListRestoreRBAC enforce user restore .read with
      | some .insufficientPermissions => rbacFilter decode enforce user rest
      | some (.internal m) => .error (.enforceFailed (.internal m))
      | none =>
        match rbacFilter decode enforce user rest with
        | .error e => .error e
        | .ok l => .ok (obj :: l)

/-- Whether the filter keeps a raw item: it decodes and its check is
Allowed. -/
def keepItem {Item : Type}
    (decode : Item → Except String DatabaseClusterRestoreCR)
    (enforce : Enforcer) (user : String) (obj : Item) : Bool :=
  match decode obj with
  | .ok r => (enforceDBClusterListRestoreRBAC enforce user r .read).isNone
  | .error _ => false

/-- Constant `everestv1alpha1.AppStateRestoring` (external operator API): the
cluster status value indicating an in-progress restore. -/
def AppStateRestoring : String := "restoring"

/-- The fields of a `DatabaseCluster` read by `CreateDatabaseClusterRestore`:
its object name and the status of its status. -/
structure DatabaseCluster where
  name : String
  statusStatus : String
deriving DecidableEq

/-- The restore request body fields read by `CreateDatabaseClusterRestore`,
after the pointer flattening in the source (a missing optional field reads as
the empty string): the target DB cluster name and the source backup name of
the data source. -/
structure DatabaseClusterRestoreBody where
  dbClusterName : String
  dbClusterBackupName : String
deriving DecidableEq

/-- Outcomes of `CreateDatabaseClusterRestore`, by kind: a bad-request
rejection (body or validation failure), an internal error (cluster fetch), a
propagated RBAC enforcement error, the in-progress-restore conflict (the
source returns it with its fixed message about another restore process being
in progress), or the successful pass-through to the cluster API. -/
inductive CreateRestoreOutcome where
  | badRequest (msg : String)
  | internalError (msg : String)
  | rbacError (e : EnforceError)
  | restoreInProgressConflict
  | proxied
deriving DecidableEq

/-- Handler `CreateDatabaseClusterRestore`. The echo-context interactions are
embedded by their results: `body` is the outcome of `getBodyFromContext`,
`validateRestore` the outcome of `validateDatabaseClusterRestore` (defined
elsewhere in the `api` package), and `getDatabaseCluster` is the cluster
read. The user-extraction failure path (a 500) is elided by taking `user` as
input. -/
def CreateDatabaseClusterRestore (enforce : Enforcer) (user nsName : String)
    (body : Except String DatabaseClusterRestoreBody)
    (validateRestore : DatabaseClusterRestoreBody → Option String)
    (getDatabaseCluster : String → String → Except String DatabaseCluster) :
    CreateRestoreOutcome :=
  match body with
  | .error _ =>
    .badRequest "Could not get DatabaseClusterRestore from the request body"
  | .ok restore =>
    match validateRestore restore with
    | some m => .badRequest m
    | none =>
      match getDatabaseCluster nsName restore.dbClusterName with
      | .error m => .internalError m
      | .ok dbCluster =>
        match enforceDBRestoreRBAC enforce user nsName
            restore.dbClusterBackupName dbCluster.name with
        | some e => .rbacError e
        | none =>
          if dbCluster.statusStatus = AppStateRestoring then
            .restoreInProgressConflict
          else .proxied

/-- Whether an `Except` value is an error. -/
def isErr {α β : Type} : Except α β → Bool
  | .error _ => true
  | .ok _ => false

/-! ### Helper lemmas about the key-set accumulator -/

theorem mem_insertKey (acc : List String) (k x : String) :
    x ∈ insertKey acc k ↔ x ∈ acc ∨ x = k := by
  unfold insertKey
  split
  · constructor
    · exact Or.inl
    · rintro (hx | rfl)
      · exact hx
      · assumption
  · simp [List.mem_append]

theorem nodup_insertKey (acc : List String) (k : String) (h : acc.Nodup) :
    (insertKey acc k).Nodup := by
  unfold insertKey
  split
  · exact h
  · simp only [List.nodup_append, List.nodup_cons, List.nodup_nil]
    exact ⟨h, by simp, by simpa using fun hk => ‹¬k ∈ acc› hk⟩

theorem mem_foldl_insertKey (toks : List String) (acc : List String)
    (x : String) :
    x ∈ toks.foldl insertKey acc ↔ x ∈ acc ∨ x ∈ toks := by
  induction toks generalizing acc with
  | nil => simp
  | cons t rest ih =>
    simp only [List.foldl_cons, List.mem_cons]
    rw [ih, mem_insertKey]
    tauto

theorem nodup_foldl_insertKey (toks : List String) (acc : List String)
    (h : acc.Nodup) : (toks.foldl insertKey acc).Nodup := by
  induction toks generalizing acc with
  | nil => exact h
  | cons t rest ih => exact ih _ (nodup_insertKey _ _ h)

/-! ### Helper lemmas about the validation loop -/

theorem not_reserved_of_tokenOk (t : String) (h : tokenOk t = true) :
    isReservedName t = false := by
  unfold tokenOk at h
  cases hr : isReservedName t
  · rfl
  · rw [hr] at h
    simp at h

theorem rfc1035_of_tokenOk (t : String) (h : tokenOk t = true) :
    rfc1035Match t = true := by
  unfold tokenOk at h
  exact ((Bool.and_eq_true _ _).mp h).2

theorem validateNamespacesLoop_all_ok (toks : List String) (acc : List String)
    (h : ∀ t ∈ (toks.map trimSpace).filter (fun t => t ≠ ""), tokenOk t = true) :
    validateNamespacesLoop acc toks =
      .ok (((toks.map trimSpace).filter (fun t => t ≠ "")).foldl insertKey acc) := by
  induction toks generalizing acc with
  | nil => rfl
  | cons t rest ih =>
    by_cases ht : trimSpace t = ""
    · have hf : ((t :: rest).map trimSpace).filter (fun t => t ≠ "") =
          (rest.map trimSpace).filter (fun t => t ≠ "") := by
        rw [List.map_cons, List.filter_cons_of_neg (by simp [ht])]
      rw [hf] at h ⊢
      rw [validateNamespacesLoop, if_pos ht]
      exact ih acc h
    · have hf : ((t :: rest).map trimSpace).filter (fun t => t ≠ "") =
          trimSpace t :: (rest.map trimSpace).filter (fun t => t ≠ "") := by
        rw [List.map_cons, List.filter_cons_of_pos (by simp [ht])]
      rw [hf] at h ⊢
      have hmem : tokenOk (trimSpace t) = true := h _ (by simp)
      rw [validateNamespacesLoop, if_neg ht,
        if_neg (by simp [not_reserved_of_tokenOk _ hmem]),
        if_neg (by simp [rfc1035_of_tokenOk _ hmem]), List.foldl_cons]
      exact ih _ (fun u hu => h u (List.mem_cons_of_mem _ hu))

theorem validateNamespacesLoop_reserved (toks : List String)
    (good rest : List String) (t : String) (acc : List String)
    (hsplit : (toks.map trimSpace).filter (fun x => x ≠ "") = good ++ t :: rest)
    (hgood : ∀ g ∈ good, tokenOk g = true)
    (hres : isReservedName t = true) :
    validateNamespacesLoop acc toks = .error (.NSReserved t) := by
  induction toks generalizing acc good with
  | nil => simp at hsplit
  | cons tok toks ih =>
    by_cases h0 : trimSpace tok = ""
    · rw [List.map_cons, List.filter_cons_of_neg (by simp [h0])] at hsplit
      rw [validateNamespacesLoop, if_pos h0]
      exact ih good acc hsplit hgood
    · rw [List.map_cons, List.filter_cons_of_pos (by simp [h0])] at hsplit
      cases good with
      | nil =>
        rw [List.nil_append] at hsplit
        injection hsplit with h1 _
        rw [validateNamespacesLoop, if_neg h0, h1, if_pos hres]
      | cons g good =>
        rw [List.cons_append] at hsplit
        injection hsplit with h1 h2
        have hgok : tokenOk g = true := hgood g (by simp)
        rw [validateNamespacesLoop, if_neg h0, h1,
          if_neg (by simp [not_reserved_of_tokenOk _ hgok]),
          if_neg (by simp [rfc1035_of_tokenOk _ hgok])]
        exact ih good _ h2 (fun u hu => hgood u (by simp [hu]))

/-! ### The regex of `validateRFC1035` against the DNS-label rule of the
spec -/

theorem labelChar_of_lower (c : Char) (h : isLowerAlpha c = true) :
    labelChar c = true := by
  unfold labelChar isLowerAlphaNum
  rw [h]
  simp

theorem labelChar_of_lowerNum (c : Char) (h : isLowerAlphaNum c = true) :
    labelChar c = true := by
  unfold labelChar
  rw [h]
  simp

theorem lowerNum_of_lower (c : Char) (h : isLowerAlpha c = true) :
    isLowerAlphaNum c = true := by
  unfold isLowerAlphaNum
  rw [h]
  simp

theorem rfc1035Match_iff_specDNSLabel (s : String) :
    rfc1035Match s = true ↔ specDNSLabel s = true := by
  unfold rfc1035Match specDNSLabel
  generalize s.data = l
  cases l with
  | nil => simp [rfc1035MatchList]
  | cons c rest =>
    rcases List.eq_nil_or_concat rest with hnil | ⟨L, b, hLb⟩
    · subst hnil
      simp only [rfc1035MatchList, List.isEmpty_nil, Bool.true_or,
        Bool.and_true, List.length_cons,
        List.length_nil, List.all_cons, List.all_nil, List.headD_cons,
        List.getLastD_cons, List.getLastD_nil, Bool.and_eq_true,
        decide_eq_true_eq]
      constructor
      · intro h
        exact ⟨⟨⟨⟨by omega, by omega⟩, labelChar_of_lower _ h⟩, h⟩,
          lowerNum_of_lower _ h⟩
      · intro h
        exact h.1.2
    · rw [List.concat_eq_append] at hLb
      subst hLb
      have h2 : (c :: (L ++ [b])).getLastD '-' = b := by
        rw [← List.cons_append, List.getLastD_concat]
      have h4 : (L ++ [b]).isEmpty = false := by cases L <;> rfl
      simp only [rfc1035MatchList]
      rw [List.dropLast_concat, List.getLastD_concat, h2]
      simp only [h4, Bool.and_false,
        Bool.false_or, List.length_cons, List.length_append, List.length_nil,
        List.all_cons, List.all_append, List.all_nil, List.headD_cons,
        Bool.and_true, Bool.and_eq_true, decide_eq_true_eq]
      constructor
      · rintro ⟨ha, ⟨hlen, hall⟩, hb⟩
        exact ⟨⟨⟨⟨by omega, by omega⟩,
          ⟨labelChar_of_lower _ ha, hall, labelChar_of_lowerNum _ hb⟩⟩, ha⟩, hb⟩
      · rintro ⟨⟨⟨⟨h1, h63⟩, _, hall, _⟩, ha⟩, hb⟩
        exact ⟨ha, ⟨by omega, hall⟩, hb⟩

/-! ### Claim C7 -/

/-- C7: for every comma-separated input, `ValidateNamespaces` splits at
commas, trims each token, drops empty tokens and deduplicates the remainder
into a set; an empty resulting set yields the `ErrNSEmpty` error; and the
input of a-b-a-blank-c yields exactly the set of a, b and c. All parts hold
for every admissible enumeration order of the Go map keys. -/
theorem validate_split_trim_dedup_C7 :
    ∀ enum : List String → List String,
      (∀ keys : List String, List.Perm (enum keys) keys) →
      ((∀ s, cleanTokens s = [] →
          ValidateNamespacesWith enum s = .error .NSEmpty) ∧
       (∀ s, (∀ t ∈ cleanTokens s, tokenOk t = true) → cleanTokens s ≠ [] →
          ∃ l, ValidateNamespacesWith enum s = .ok l ∧ l.Nodup ∧
            (∀ x, x ∈ l ↔ x ∈ cleanTokens s)) ∧
       (∃ l, ValidateNamespacesWith enum "a,b,a, ,c" = .ok l ∧
          List.Perm l ["a", "b", "c"])) := by
  intro enum henum
  refine ⟨?_, ?_, ?_⟩
  · intro s h
    have hok : ∀ t ∈ ((splitOnCommas s).map trimSpace).filter (fun t => t ≠ ""),
        tokenOk t = true := by
      intro t ht
      rw [show ((splitOnCommas s).map trimSpace).filter (fun t => t ≠ "") =
        cleanTokens s from rfl, h] at ht
      cases ht
    have hloop := validateNamespacesLoop_all_ok (splitOnCommas s) [] hok
    rw [show ((splitOnCommas s).map trimSpace).filter (fun t => t ≠ "") =
      cleanTokens s from rfl, h] at hloop
    simp only [List.foldl_nil] at hloop
    simp [ValidateNamespacesWith, hloop, (henum []).eq_nil]
  · intro s hok hne
    have hloop := validateNamespacesLoop_all_ok (splitOnCommas s) [] hok
    rw [show ((splitOnCommas s).map trimSpace).filter (fun t => t ≠ "") =
      cleanTokens s from rfl] at hloop
    obtain ⟨t0, ht0⟩ := List.exists_mem_of_ne_nil _ hne
    have hkeysne : (cleanTokens s).foldl insertKey [] ≠ [] := by
      intro hk
      have := (mem_foldl_insertKey (cleanTokens s) [] t0).mpr (Or.inr ht0)
      rw [hk] at this
      cases this
    have hlen : (enum ((cleanTokens s).foldl insertKey [])).length ≠ 0 := by
      rw [(henum _).length_eq]
      simpa [List.length_eq_zero] using hkeysne
    refine ⟨enum ((cleanTokens s).foldl insertKey []), ?_, ?_, ?_⟩
    · simp [ValidateNamespacesWith, hloop, hlen]
    · exact ((henum _).nodup_iff).mpr
        (nodup_foldl_insertKey (cleanTokens s) [] List.nodup_nil)
    · intro x
      rw [(henum _).mem_iff, mem_foldl_insertKey]
      simp
  · have hloop : validateNamespacesLoop [] (splitOnCommas "a,b,a, ,c") =
        .ok ["a", "b", "c"] := by decide
    have hlen : (enum ["a", "b", "c"]).length = 3 := by
      rw [(henum _).length_eq]
      rfl
    refine ⟨enum ["a", "b", "c"], ?_, henum _⟩
    simp [ValidateNamespacesWith, hloop, hlen]

/-- C7 witness: the theorem applied at the identity enumeration and the
concrete input of the spec. -/
theorem validate_split_trim_dedup_C7_witness :
    ∃ l, ValidateNamespacesWith id "a,b,a, ,c" = .ok l ∧
      List.Perm l ["a", "b", "c"] :=
  (validate_split_trim_dedup_C7 id (fun _ => List.Perm.refl _)).2.2

/-! ### Claim C8 -/

/-- C8 counterexample: an input that contains the reserved token
everest-system but starts with the non-compliant token -bad is rejected with
the RFC-1035 error naming -bad, not with the Reserved error, because the loop
checks tokens in order; so the claim as universally stated fails on this
input. -/
theorem reserved_error_C8_counterexample :
    "everest-system" ∈ cleanTokens "-bad,everest-system" ∧
    isReservedName "everest-system" = true ∧
    ValidateNamespaces "-bad,everest-system" =
      .error (.NameNotRFC1035Compatible "-bad") ∧
    ∀ v, NamespacesError.NameNotRFC1035Compatible "-bad" ≠
      NamespacesError.NSReserved v :=
  ⟨by decide, by decide, by decide, fun _ h => NamespacesError.noConfusion h⟩

/-- C8 (amended): for every input whose cleaned token sequence reaches a
reserved token with all earlier tokens passing both per-token checks,
`ValidateNamespaces` returns the `ErrNSReserved` error naming that token, and
no namespace list is produced. -/
theorem reserved_error_C8_amended (s : String) (good rest : List String)
    (t : String)
    (hsplit : cleanTokens s = good ++ t :: rest)
    (hgood : ∀ g ∈ good, tokenOk g = true)
    (hres : isReservedName t = true) :
    ValidateNamespaces s = .error (.NSReserved t) := by
  have hloop := validateNamespacesLoop_reserved (splitOnCommas s) good rest t []
    hsplit hgood hres
  simp [ValidateNamespaces, ValidateNamespacesWith, hloop]

/-- C8 witness: the amended theorem applied at an input whose tokens are a
valid name followed by the reserved system namespace. -/
theorem reserved_error_C8_witness :
    ValidateNamespaces "a,everest-system" =
      .error (.NSReserved "everest-system") :=
  reserved_error_C8_amended "a,everest-system" ["a"] [] "everest-system"
    (by decide) (by decide) (by decide)

/-! ### Claim C9 -/

/-- C9: for every non-reserved single trimmed token, `ValidateNamespaces`
accepts it (returning it as the resulting list) iff it satisfies the
DNS-label rule exactly as the spec words it, and otherwise returns the
RFC-1035 error naming the offending value. -/
theorem dns_label_rule_C9 (t : String)
    (hsingle : splitOnCommas t = [t])
    (htrim : trimSpace t = t)
    (hne : t ≠ "")
    (hres : isReservedName t = false) :
    (ValidateNamespaces t = .ok [t] ↔ specDNSLabel t = true) ∧
    (specDNSLabel t = false →
      ValidateNamespaces t = .error (.NameNotRFC1035Compatible t)) := by
  have hloopT : rfc1035Match t = true →
      validateNamespacesLoop [] (splitOnCommas t) = .ok [t] := by
    intro hr
    rw [hsingle]
    simp only [validateNamespacesLoop, htrim, if_neg hne,
      if_neg (by simp [hres] : ¬isReservedName t = true), hr, Bool.not_true,
      if_neg (Bool.false_ne_true), insertKey]
    simp
  have hloopF : rfc1035Match t = false →
      validateNamespacesLoop [] (splitOnCommas t) =
        .error (.NameNotRFC1035Compatible t) := by
    intro hr
    rw [hsingle]
    simp only [validateNamespacesLoop, htrim, if_neg hne,
      if_neg (by simp [hres] : ¬isReservedName t = true), hr, Bool.not_false,
      if_pos rfl]
    simp
  constructor
  · rw [← rfc1035Match_iff_specDNSLabel]
    constructor
    · intro h
      by_cases hr : rfc1035Match t
      · exact hr
      · rw [Bool.not_eq_true] at hr
        simp [ValidateNamespaces, ValidateNamespacesWith, hloopF hr] at h
    · intro hr
      simp [ValidateNamespaces, ValidateNamespacesWith, hloopT hr]
  · intro hspec
    have hr : rfc1035Match t = false := by
      cases hrr : rfc1035Match t
      · rfl
      · rw [(rfc1035Match_iff_specDNSLabel t).mp hrr] at hspec
        cases hspec
    simp [ValidateNamespaces, ValidateNamespacesWith, hloopF hr]

/-- C9 witness: the theorem applied at the compliant name good-name1 (accept
direction) with its hypotheses evaluated. -/
theorem dns_label_rule_C9_witness :
    ValidateNamespaces "good-name1" = .ok ["good-name1"] :=
  (dns_label_rule_C9 "good-name1" (by decide) (by decide) (by decide)
    (by decide)).1.mpr (by decide)

/-! ### Provisioning helper lemmas -/

theorem namespaceExists_of_stateOf (getNamespace : String → GetNamespaceResult)
    (nsName : String) (st : NsState)
    (hst : stateOf (getNamespace nsName) = some st) :
    namespaceExists getNamespace nsName = .ok (nsExistsOf st, managedOf st) := by
  unfold stateOf at hst
  unfold namespaceExists
  cases hg : getNamespace nsName with
  | found ns =>
    simp only [hg, Option.some.injEq] at hst
    cases hm : isManagedByEverest ns <;> rw [hm] at hst <;> simp at hst <;>
      subst hst <;> simp [hm, nsExistsOf, managedOf]
  | notFound =>
    simp only [hg, Option.some.injEq] at hst
    subst hst
    rfl
  | failure m => simp [hg] at hst

/-! ### Claim C1 -/

/-- C1: for every requested mode and resolver state the per-namespace
provisioning decision matches the 6-row decision table — plain install
proceeds only from absent and conflicts with already-exists whenever present;
take-ownership install proceeds from every state, creating the namespace only
when it was absent; update conflicts with does-not-exist when absent and
not-managed when present-unmanaged, and proceeds only when present-managed —
and a conflict result is never an installer invocation. -/
theorem provision_decision_table_C1 (cfg : NamespaceAddConfig)
    (getNamespace : String → GetNamespaceResult) (ver nsName : String)
    (st : NsState) (hst : stateOf (getNamespace nsName) = some st) :
    (cfg.Update = false → cfg.TakeOwnership = false → st = .absent →
      provisionDBNamespace cfg getNamespace ver nsName =
        .ok (installerCall cfg ver nsName false)) ∧
    (cfg.Update = false → cfg.TakeOwnership = false → st ≠ .absent →
      provisionDBNamespace cfg getNamespace ver nsName =
        .error (.conflict (.alreadyExists nsName))) ∧
    (cfg.Update = false → cfg.TakeOwnership = true →
      provisionDBNamespace cfg getNamespace ver nsName =
        .ok (installerCall cfg ver nsName (nsExistsOf st))) ∧
    (cfg.Update = true → st = .absent →
      provisionDBNamespace cfg getNamespace ver nsName =
        .error (.conflict (.doesNotExist nsName))) ∧
    (cfg.Update = true → st = .presentUnmanaged →
      provisionDBNamespace cfg getNamespace ver nsName =
        .error (.conflict (.notManagedByEverest nsName))) ∧
    (cfg.Update = true → st = .presentManaged →
      provisionDBNamespace cfg getNamespace ver nsName =
        .ok (installerCall cfg ver nsName true)) ∧
    (∀ k, provisionDBNamespace cfg getNamespace ver nsName =
        .error (.conflict k) →
      ∀ c, provisionDBNamespace cfg getNamespace ver nsName ≠ .ok c) := by
  have hne := namespaceExists_of_stateOf getNamespace nsName st hst
  refine ⟨?_, ?_, ?_, ?_, ?_, ?_, ?_⟩
  · intro hu hto hab
    subst hab
    simp [provisionDBNamespace, hne, hu, hto, nsExistsOf, managedOf]
  · intro hu hto hab
    cases st with
    | absent => exact absurd rfl hab
    | presentUnmanaged =>
      simp [provisionDBNamespace, hne, hu, hto, nsExistsOf, managedOf]
    | presentManaged =>
      simp [provisionDBNamespace, hne, hu, hto, nsExistsOf, managedOf]
  · intro hu hto
    cases st <;>
      simp [provisionDBNamespace, hne, hu, hto, nsExistsOf, managedOf]
  · intro hu hab
    subst hab
    simp [provisionDBNamespace, hne, hu, nsExistsOf, managedOf]
  · intro hu hab
    subst hab
    simp [provisionDBNamespace, hne, hu, nsExistsOf, managedOf]
  · intro hu hab
    subst hab
    simp [provisionDBNamespace, hne, hu, nsExistsOf, managedOf]
  · intro k hk c hc
    rw [hk] at hc
    exact Except.noConfusion hc

/-- A concrete configuration used by several concrete checks: plain install
mode over the given namespace list with no operator selected. -/
def exampleAddConfig (nsList : List String) : NamespaceAddConfig :=
  { DisableTelemetry := false, TakeOwnership := false,
    Operator := { PG := false, PSMDB := false, PXC := false },
    Update := false, NamespaceList := nsList, ChartDir := "" }

/-- C1 witness: update mode against a present-unmanaged namespace yields the
not-managed conflict. -/
theorem provision_decision_table_C1_witness :
    provisionDBNamespace { exampleAddConfig [] with Update := true }
        (fun _ => .found { labels := [] }) "1.0.0" "db1" =
      .error (.conflict (.notManagedByEverest "db1")) :=
  (provision_decision_table_C1 { exampleAddConfig [] with Update := true }
      (fun _ => .found { labels := [] }) "1.0.0" "db1" .presentUnmanaged
      rfl).2.2.2.2.1 rfl rfl

/-! ### Claim C10 -/

/-- C10: in update mode the provisioning outcome of a namespace is
independent of the TakeOwnership flag: two runs differing only in that flag
yield the same result. -/
theorem update_ignores_takeOwnership_C10 (cfg : NamespaceAddConfig)
    (getNamespace : String → GetNamespaceResult) (ver nsName : String)
    (b : Bool) (h : cfg.Update = true) :
    provisionDBNamespace { cfg with TakeOwnership := b } getNamespace ver
        nsName =
      provisionDBNamespace cfg getNamespace ver nsName := by
  unfold provisionDBNamespace
  cases hne : namespaceExists getNamespace nsName with
  | error e => rfl
  | ok p =>
    obtain ⟨nsE, owned⟩ := p
    simp [h, installerCall, getValues]

/-- C10 witness: the theorem applied at a concrete update-mode configuration,
flipping TakeOwnership. -/
theorem update_ignores_takeOwnership_C10_witness :
    provisionDBNamespace
        { exampleAddConfig [] with Update := true, TakeOwnership := true }
        (fun _ => .notFound) "1.0.0" "db1" =
      provisionDBNamespace { exampleAddConfig [] with Update := true }
        (fun _ => .notFound) "1.0.0" "db1" :=
  update_ignores_takeOwnership_C10 { exampleAddConfig [] with Update := true }
    (fun _ => .notFound) "1.0.0" "db1" true rfl

/-! ### Claim C4 -/

theorem runStepsWithSpinner_trace (l : List Step) :
    (RunStepsWithSpinner l).map Prod.fst =
      l.take (l.findIdx (fun s => isErr s.F) + 1) := by
  induction l with
  | nil => rfl
  | cons s rest ih =>
    cases hf : s.F with
    | error e => simp [RunStepsWithSpinner, hf, List.findIdx_cons, isErr]
    | ok c => simp [RunStepsWithSpinner, hf, List.findIdx_cons, isErr, ih]

theorem runStepsWithSpinner_outcomes (l : List Step) :
    ∀ p ∈ RunStepsWithSpinner l, p.2 = p.1.F := by
  induction l with
  | nil => intro p hp; cases hp
  | cons s rest ih =>
    intro p hp
    cases hf : s.F with
    | error e =>
      simp only [RunStepsWithSpinner, hf, List.mem_singleton] at hp
      subst hp
      simp [hf]
    | ok c =>
      simp only [RunStepsWithSpinner, hf, List.mem_cons] at hp
      rcases hp with rfl | hp
      · simp [hf]
      · exact ih p hp

/-- C4 counterexample: reversal is an admissible enumeration order of the Go
map keys (a permutation); under it the validated list of the two-token input
is the reverse of the caller-supplied order, and the provisioner then
executes the install steps in that reversed order — so the claim that steps
run in the order the caller supplied the namespaces fails. -/
theorem run_sequential_failfast_C4_counterexample :
    List.Perm (List.reverse ["a", "b"]) ["a", "b"] ∧
    ValidateNamespacesWith List.reverse "a,b" = .ok ["b", "a"] ∧
    (Run (exampleAddConfig ["b", "a"]) (fun _ => .notFound) "0.0.0").map
        (fun p => p.1.Desc) =
      ["Installing namespace " ++ quoted "b",
       "Installing namespace " ++ quoted "a"] ∧
    (["b", "a"] ≠ ["a", "b"]) :=
  ⟨by decide, by decide, by decide, by decide⟩

/-- C4 (amended): the provisioner executes exactly one install step per entry
of the validated namespace list, strictly sequentially in the order of that
list, recording each executed step's own outcome, and the first failing step
halts all remaining steps (the executed trace is the prefix of the step list
up to and including the first failure); the validated list enumerates the
deduplicated caller-supplied token set, but in an order Go leaves
unspecified. -/
theorem run_sequential_failfast_C4 (cfg : NamespaceAddConfig)
    (getNamespace : String → GetNamespaceResult) (ver : String) :
    ((Run cfg getNamespace ver).map Prod.fst =
      (installStepsOf cfg getNamespace ver).take
        ((installStepsOf cfg getNamespace ver).findIdx
          (fun s => isErr s.F) + 1)) ∧
    installStepsOf cfg getNamespace ver =
      cfg.NamespaceList.map (newStepInstallNamespace cfg getNamespace ver) ∧
    (∀ p ∈ Run cfg getNamespace ver, p.2 = p.1.F) :=
  ⟨runStepsWithSpinner_trace _, rfl, runStepsWithSpinner_outcomes _⟩

/-- C4 witness: the amended theorem applied at a concrete two-namespace run
in which the second namespace resolution fails, with its trace equation and
a concrete recorded outcome evaluated. -/
theorem run_sequential_failfast_C4_witness :
    ((Run (exampleAddConfig ["ok1", "bad2", "never3"])
        (fun n => if n = "ok1" then .notFound else .failure "down") "1.0").map
          Prod.fst =
      (installStepsOf (exampleAddConfig ["ok1", "bad2", "never3"])
        (fun n => if n = "ok1" then .notFound else .failure "down") "1.0").take
        ((installStepsOf (exampleAddConfig ["ok1", "bad2", "never3"])
          (fun n => if n = "ok1" then .notFound else .failure "down")
          "1.0").findIdx (fun s => isErr s.F) + 1)) ∧
    ((Run (exampleAddConfig ["ok1", "bad2", "never3"])
        (fun n => if n = "ok1" then .notFound else .failure "down")
        "1.0").map Prod.fst).length = 2 ∧
    (newStepInstallNamespace (exampleAddConfig ["ok1", "bad2", "never3"])
        (fun n => if n = "ok1" then .notFound else .failure "down") "1.0"
        "ok1",
      provisionDBNamespace (exampleAddConfig ["ok1", "bad2", "never3"])
        (fun n => if n = "ok1" then .notFound else .failure "down") "1.0"
        "ok1").2 =
      (newStepInstallNamespace (exampleAddConfig ["ok1", "bad2", "never3"])
        (fun n => if n = "ok1" then .notFound else .failure "down") "1.0"
        "ok1",
      provisionDBNamespace (exampleAddConfig ["ok1", "bad2", "never3"])
        (fun n => if n = "ok1" then .notFound else .failure "down") "1.0"
        "ok1").1.F := by
  have h := run_sequential_failfast_C4
    (exampleAddConfig ["ok1", "bad2", "never3"])
    (fun n => if n = "ok1" then .notFound else .failure "down") "1.0"
  exact ⟨h.1, by rw [h.1]; decide, h.2.2 _ (by decide)⟩

/-! ### Claim C2 -/

/-- C2: for every user, namespace, source backup name and target cluster
name, `enforceDBRestoreRBAC` succeeds iff all three grants hold — read on the
target cluster credentials, read on the named source backup, read on
restores keyed by the target cluster — so the failure of any one of the
three denies the whole operation. -/
theorem restore_rbac_conjunction_C2 (enforce : Enforcer)
    (user nsName srcBackupName dbClusterName : String) :
    enforceDBRestoreRBAC enforce user nsName srcBackupName dbClusterName =
        none ↔
      (enforce user .databaseClusterCredentials .read
          (ObjectName nsName dbClusterName) = none ∧
       enforce user .databaseClusterBackups .read
          (ObjectName nsName srcBackupName) = none ∧
       enforce user .databaseClusterRestores .read
          (ObjectName nsName dbClusterName) = none) := by
  unfold enforceDBRestoreRBAC
  cases h1 : enforce user .databaseClusterCredentials .read
      (ObjectName nsName dbClusterName) with
  | some e => simp [h1]
  | none =>
    cases h2 : enforce user .databaseClusterBackups .read
        (ObjectName nsName srcBackupName) with
    | some e => simp [h2]
    | none => simp

/-- C2 witness: the equivalence applied at an all-allowing enforcer, showing
the composite check succeeds when all three grants hold. -/
theorem restore_rbac_conjunction_C2_witness :
    enforceDBRestoreRBAC (fun _ _ _ _ => none) "u" "ns" "b1" "c1" = none :=
  (restore_rbac_conjunction_C2 (fun _ _ _ _ => none) "u" "ns" "b1" "c1").mpr
    ⟨rfl, rfl, rfl⟩

/-! ### Claim C3 -/

/-- C3: with a decoded body, passing validation and a fetched target cluster,
a restoring target status yields the dedicated conflict outcome exactly when
authorization has succeeded; when any authorization check fails the RBAC
error is returned instead, even against a restoring cluster, showing the
in-progress check runs only after authorization; and the conflict outcome is
a distinct kind, never the permission-error outcome. -/
theorem restore_in_progress_conflict_C3 (enforce : Enforcer)
    (user nsName : String) (restore : DatabaseClusterRestoreBody)
    (validateRestore : DatabaseClusterRestoreBody → Option String)
    (getDatabaseCluster : String → String → Except String DatabaseCluster)
    (dbCluster : DatabaseCluster)
    (hval : validateRestore restore = none)
    (hget : getDatabaseCluster nsName restore.dbClusterName = .ok dbCluster) :
    (enforceDBRestoreRBAC enforce user nsName restore.dbClusterBackupName
        dbCluster.name = none →
      dbCluster.statusStatus = AppStateRestoring →
      CreateDatabaseClusterRestore enforce user nsName (.ok restore)
        validateRestore getDatabaseCluster = .restoreInProgressConflict) ∧
    (∀ e, enforceDBRestoreRBAC enforce user nsName
        restore.dbClusterBackupName dbCluster.name = some e →
      CreateDatabaseClusterRestore enforce user nsName (.ok restore)
        validateRestore getDatabaseCluster = .rbacError e) ∧
    (∀ e, CreateRestoreOutcome.restoreInProgressConflict ≠
      CreateRestoreOutcome.rbacError e) := by
  refine ⟨?_, ?_, fun e h => CreateRestoreOutcome.noConfusion h⟩
  · intro hrb hstat
    simp [CreateDatabaseClusterRestore, hval, hget, hrb, hstat]
  · intro e hrb
    simp [CreateDatabaseClusterRestore, hval, hget, hrb]

/-- C3 witness: a restoring target cluster with an all-allowing enforcer
produces the conflict outcome. -/
theorem restore_in_progress_conflict_C3_witness :
    CreateDatabaseClusterRestore (fun _ _ _ _ => none) "u1" "ns1"
        (.ok { dbClusterName := "c1", dbClusterBackupName := "b1" })
        (fun _ => none)
        (fun _ _ => .ok { name := "c1", statusStatus := "restoring" }) =
      .restoreInProgressConflict :=
  (restore_in_progress_conflict_C3 (fun _ _ _ _ => none) "u1" "ns1"
      { dbClusterName := "c1", dbClusterBackupName := "b1" } (fun _ => none)
      (fun _ _ => .ok { name := "c1", statusStatus := "restoring" })
      { name := "c1", statusStatus := "restoring" } rfl rfl).1 rfl rfl

/-! ### Claim C5 -/

theorem countP_add_countP_not {α : Type} (p : α → Bool) (l : List α) :
    l.countP p + l.countP (fun a => !p a) = l.length := by
  induction l with
  | nil => rfl
  | cons a l ih =>
    rw [List.countP_cons, List.countP_cons, List.length_cons]
    cases p a <;> simp <;> omega

theorem rbacFilter_all_decoded {Item : Type}
    (decode : Item → Except String DatabaseClusterRestoreCR)
    (enforce : Enforcer) (user : String) :
    ∀ l : List Item,
      (∀ x ∈ l, ∃ r, decode x = .ok r) →
      (∀ x ∈ l, ∀ r, decode x = .ok r → ∀ m,
        enforceDBClusterListRestoreRBAC enforce user r .read ≠
          some (.internal m)) →
      rbacFilter decode enforce user l =
        .ok (l.filter (keepItem decode enforce user)) := by
  intro l
  induction l with
  | nil => intro _ _; rfl
  | cons x rest ih =>
    intro hdec hinf
    obtain ⟨r, hr⟩ := hdec x (by simp)
    have hkeep : keepItem decode enforce user x =
        (enforceDBClusterListRestoreRBAC enforce user r .read).isNone := by
      unfold keepItem
      rw [hr]
    have ihr := ih (fun y hy => hdec y (by simp [hy]))
      (fun y hy => hinf y (by simp [hy]))
    cases he : enforceDBClusterListRestoreRBAC enforce user r .read with
    | none =>
      rw [List.filter_cons_of_pos (by rw [hkeep, he]; rfl)]
      simp [rbacFilter, hr, he, ihr]
    | some e =>
      cases e with
      | insufficientPermissions =>
        rw [List.filter_cons_of_neg (by rw [hkeep, he]; simp)]
        simp [rbacFilter, hr, he, ihr]
      | internal m => exact absurd he (hinf x (by simp) r hr m)

/-- C5: when every item of the input decodes and no per-item check reports an
infrastructure error, the filter silently drops exactly the denied items: it
returns the kept items, which form a sublist of the input (relative order
preserved) of length N minus M, where M counts the dropped items. -/
theorem filter_drops_denied_C5 {Item : Type}
    (decode : Item → Except String DatabaseClusterRestoreCR)
    (enforce : Enforcer) (user : String) (l : List Item)
    (hdec : ∀ x ∈ l, ∃ r, decode x = .ok r)
    (hinf : ∀ x ∈ l, ∀ r, decode x = .ok r → ∀ m,
      enforceDBClusterListRestoreRBAC enforce user r .read ≠
        some (.internal m)) :
    rbacFilter decode enforce user l =
      .ok (l.filter (keepItem decode enforce user)) ∧
    (l.filter (keepItem decode enforce user)).Sublist l ∧
    (l.filter (keepItem decode enforce user)).length =
      l.length - l.countP (fun x => !keepItem decode enforce user x) := by
  refine ⟨rbacFilter_all_decoded decode enforce user l hdec hinf,
    List.filter_sublist l, ?_⟩
  have h1 := countP_add_countP_not (keepItem decode enforce user) l
  have h2 := List.countP_eq_length_filter (keepItem decode enforce user) l
  omega

/-- C5 witness: a three-item list whose middle item is denied filters to the
outer two items, in order. -/
theorem filter_drops_denied_C5_witness :
    rbacFilter
        (fun n : Nat =>
          if n = 1 then
            (.ok { objNamespace := "ns", dbClusterName := "denied" } :
              Except String DatabaseClusterRestoreCR)
          else .ok { objNamespace := "ns", dbClusterName := "ok" })
        (fun _ _ _ obj =>
          if obj = "ns/denied" then some .insufficientPermissions else none)
        "u" [0, 1, 2] = .ok [0, 2] := by
  have h := filter_drops_denied_C5
    (fun n : Nat =>
      if n = 1 then
        (.ok { objNamespace := "ns", dbClusterName := "denied" } :
          Except String DatabaseClusterRestoreCR)
      else .ok { objNamespace := "ns", dbClusterName := "ok" })
    (fun _ _ _ obj =>
      if obj = "ns/denied" then some .insufficientPermissions else none)
    "u" [0, 1, 2]
    (by intro x _; by_cases hx : x = 1 <;> simp [hx])
    (by
      intro x _ r _ m
      unfold enforceDBClusterListRestoreRBAC
      dsimp only
      split <;> simp)
  rw [h.1]
  decide

/-! ### Claim C6 -/

theorem rbacFilter_decode_abort {Item : Type}
    (decode : Item → Except String DatabaseClusterRestoreCR)
    (enforce : Enforcer) (user : String) :
    ∀ l : List Item, (∃ x ∈ l, ∃ m, decode x = .error m) →
      ∃ e, rbacFilter decode enforce user l = .error e := by
  intro l
  induction l with
  | nil =>
    rintro ⟨x, hx, _⟩
    cases hx
  | cons y rest ih =>
    rintro ⟨x, hx, m, hm⟩
    cases hd : decode y with
    | error m0 => exact ⟨.decodeFailed m0, by simp [rbacFilter, hd]⟩
    | ok r =>
      have hxrest : x ∈ rest := by
        rcases List.mem_cons.mp hx with rfl | hxr
        · rw [hd] at hm
          cases hm
        · exact hxr
      cases he : enforceDBClusterListRestoreRBAC enforce user r .read with
      | none =>
        obtain ⟨e, hee⟩ := ih ⟨x, hxrest, m, hm⟩
        exact ⟨e, by simp [rbacFilter, hd, he, hee]⟩
      | some err =>
        cases err with
        | insufficientPermissions =>
          obtain ⟨e, hee⟩ := ih ⟨x, hxrest, m, hm⟩
          exact ⟨e, by simp [rbacFilter, hd, he, hee]⟩
        | internal mi =>
          exact ⟨.enforceFailed (.internal mi), by simp [rbacFilter, hd, he]⟩

theorem rbacFilter_enforce_abort {Item : Type}
    (decode : Item → Except String DatabaseClusterRestoreCR)
    (enforce : Enforcer) (user : String) :
    ∀ (pre : List Item) (x : Item) (post : List Item)
      (r : DatabaseClusterRestoreCR) (m : String),
      (∀ y ∈ pre, ∃ ry, decode y = .ok ry ∧ ∀ mi,
        enforceDBClusterListRestoreRBAC enforce user ry .read ≠
          some (.internal mi)) →
      decode x = .ok r →
      enforceDBClusterListRestoreRBAC enforce user r .read =
        some (.internal m) →
      rbacFilter decode enforce user (pre ++ x :: post) =
        .error (.enforceFailed (.internal m)) := by
  intro pre
  induction pre with
  | nil =>
    intro x post r m _ hdx hex
    simp [rbacFilter, hdx, hex]
  | cons y pre ih =>
    intro x post r m hpre hdx hex
    obtain ⟨ry, hdy, hny⟩ := hpre y (by simp)
    have ihr := ih x post r m (fun z hz => hpre z (by simp [hz])) hdx hex
    cases he : enforceDBClusterListRestoreRBAC enforce user ry .read with
    | none => simp [rbacFilter, hdy, he, ihr]
    | some err =>
      cases err with
      | insufficientPermissions => simp [rbacFilter, hdy, he, ihr]
      | internal mi => exact absurd he (hny mi)

/-- C6: a decode failure of any input item aborts the whole list operation
with an error (no partial result), and a non-permission error from the
per-item authorization check — reached after any earlier items are kept or
silently dropped — aborts the whole list with that error. -/
theorem filter_aborts_C6 {Item : Type}
    (decode : Item → Except String DatabaseClusterRestoreCR)
    (enforce : Enforcer) (user : String) :
    (∀ l : List Item, (∃ x ∈ l, ∃ m, decode x = .error m) →
      ∃ e, rbacFilter decode enforce user l = .error e) ∧
    (∀ (pre : List Item) (x : Item) (post : List Item)
      (r : DatabaseClusterRestoreCR) (m : String),
      (∀ y ∈ pre, ∃ ry, decode y = .ok ry ∧ ∀ mi,
        enforceDBClusterListRestoreRBAC enforce user ry .read ≠
          some (.internal mi)) →
      decode x = .ok r →
      enforceDBClusterListRestoreRBAC enforce user r .read =
        some (.internal m) →
      rbacFilter decode enforce user (pre ++ x :: post) =
        .error (.enforceFailed (.internal m))) :=
  ⟨rbacFilter_decode_abort decode enforce user,
   rbacFilter_enforce_abort decode enforce user⟩

/-- C6 witness: a list with an undecodable item aborts with an error, and an
infrastructure enforcement error on a decoded item aborts with that error. -/
theorem filter_aborts_C6_witness :
    (∃ e, rbacFilter
        (fun _ : Nat =>
          (.error "bad-item" : Except String DatabaseClusterRestoreCR))
        (fun _ _ _ _ => none) "u" [0] = .error e) ∧
    rbacFilter
        (fun _ : Nat =>
          (.ok { objNamespace := "ns", dbClusterName := "c" } :
            Except String DatabaseClusterRestoreCR))
        (fun _ _ _ _ => some (.internal "down")) "u" [1] =
      .error (.enforceFailed (.internal "down")) :=
  ⟨(filter_aborts_C6
      (fun _ : Nat =>
        (.error "bad-item" : Except String DatabaseClusterRestoreCR))
      (fun _ _ _ _ => none) "u").1 [0] ⟨0, by simp, "bad-item", rfl⟩,
   (filter_aborts_C6
      (fun _ : Nat =>
        (.ok { objNamespace := "ns", dbClusterName := "c" } :
          Except String DatabaseClusterRestoreCR))
      (fun _ _ _ _ => some (.internal "down")) "u").2 [] 1 []
      { objNamespace := "ns", dbClusterName := "c" } "down"
      (fun y hy => absurd hy (List.not_mem_nil y)) rfl rfl⟩

end EverestModel
